import Mathlib

/-!
Shallow embedding of the recipe-app-api ownership/filtering layer.

The repository source provided under `src/` consists of the API test
modules (`test_recipe_api.py`, `test_ingredient_api.py`) and
`user/views.py`. The request handlers, models and serializers they
exercise (`core.models`, `recipe.serializers`, the recipe/tag/ingredient
viewsets) are not in `src/`, so those components are modelled from the
specification (sections 3, 4.1–4.4, 6, 7), each such definition carrying
a doc comment beginning `Modelled from the spec:`. `user/views.py` is in
`src/` and is embedded directly.
-/

namespace RecipeApp

abbrev UserId := Nat

/-- Data model (spec §3): Tag is {id, name, owner}. -/
structure Tag where
  id : Nat
  name : String
  user : UserId
deriving DecidableEq, Repr

/-- Data model (spec §3): Ingredient is {id, name, owner}. -/
structure Ingredient where
  id : Nat
  name : String
  user : UserId
deriving DecidableEq, Repr

/-- Data model (spec §3): Recipe is {id, title, time_minutes, price, owner,
optional image reference, set of Tag references, set of Ingredient
references}. Tag/ingredient associations are kept as lists of ids; the
price is a rational (decimal). -/
structure Recipe where
  id : Nat
  title : String
  time_minutes : Nat
  price : ℚ
  user : UserId
  image : Option String := none
  tags : List Nat := []
  ingredients : List Nat := []
deriving DecidableEq, Repr

/-- Data model (spec §3): User identity with an email. -/
structure User where
  id : Nat
  email : String
deriving DecidableEq, Repr

/-- The relational store (spec §2 Data Store): tables for User, Tag,
Ingredient, Recipe, plus the image file storage (`files` is the set of
stored file paths, spec §4.4). -/
structure DB where
  users : List User := []
  tags : List Tag := []
  ingredients : List Ingredient := []
  recipes : List Recipe := []
  files : List String := []
deriving DecidableEq, Repr

/-! ## Ownership filter (spec §4.1) -/

/-- Modelled from the spec: the Ownership Filter restricted to the recipe
table — "given an authenticated user identity and an entity collection,
returns only rows whose owner equals that identity". -/
def ownedRecipes (u : UserId) (db : DB) : List Recipe :=
  db.recipes.filter (fun r => r.user == u)

/-- Modelled from the spec: the Ownership Filter restricted to the tag
table. -/
def ownedTags (u : UserId) (db : DB) : List Tag :=
  db.tags.filter (fun t => t.user == u)

/-- Modelled from the spec: the Ownership Filter restricted to the
ingredient table. -/
def ownedIngredients (u : UserId) (db : DB) : List Ingredient :=
  db.ingredients.filter (fun i => i.user == u)

/-! ## List query builder (spec §4.2) -/

/-- Modelled from the spec: "if a tag-id set is present, restricts to
recipes associated with at least one tag whose id is in the set". -/
def matchesTagFilter (tagIds : Option (List Nat)) (r : Recipe) : Bool :=
  match tagIds with
  | none => true
  | some ids => r.tags.any (fun t => ids.contains t)

/-- Modelled from the spec: "if an ingredient-id set is present, restricts
similarly via ingredient association". -/
def matchesIngredientFilter (ingIds : Option (List Nat)) (r : Recipe) : Bool :=
  match ingIds with
  | none => true
  | some ids => r.ingredients.any (fun i => ids.contains i)

/-- Descending-id order on recipes (the `order_by(-id)` of
`test_retrieve_recipes`). -/
def recipeDescId (a b : Recipe) : Prop := b.id ≤ a.id

instance : DecidableRel recipeDescId :=
  fun a b => inferInstanceAs (Decidable (b.id ≤ a.id))

instance : IsTotal Recipe recipeDescId :=
  ⟨fun a b => Nat.le_total b.id a.id⟩

instance : IsTrans Recipe recipeDescId :=
  ⟨fun _ _ _ h1 h2 => Nat.le_trans h2 h1⟩

/-- Descending-name order on ingredients (the `order_by(-name)` of
`test_retrieve_ingredient_list`). -/
def ingredientDescName (a b : Ingredient) : Prop := b.name ≤ a.name

instance : DecidableRel ingredientDescName :=
  fun a b => inferInstanceAs (Decidable (b.name ≤ a.name))

instance : IsTotal Ingredient ingredientDescName :=
  ⟨fun a b => le_total b.name a.name⟩

instance : IsTrans Ingredient ingredientDescName :=
  ⟨fun _ _ _ h1 h2 => le_trans h2 h1⟩

/-- Descending-name order on tags, mirroring the ingredient listing. -/
def tagDescName (a b : Tag) : Prop := b.name ≤ a.name

instance : DecidableRel tagDescName :=
  fun a b => inferInstanceAs (Decidable (b.name ≤ a.name))

instance : IsTotal Tag tagDescName :=
  ⟨fun a b => le_total b.name a.name⟩

instance : IsTrans Tag tagDescName :=
  ⟨fun _ _ _ h1 h2 => le_trans h2 h1⟩

/-- Modelled from the spec: the recipe list endpoint (spec §4.2). An
unauthenticated request fails with 401 before reaching the ownership
filter (spec §4.1, §7). Otherwise it starts from the ownership-filtered
recipe set, applies the optional tag-id-set and ingredient-id-set
filters, deduplicates, and returns in reverse-id order (spec §4.2 with
the ordering observed in `test_retrieve_recipes`). -/
def listRecipes (db : DB) (auth : Option UserId)
    (tagIds ingIds : Option (List Nat)) : Nat × List Recipe :=
  match auth with
  | none => (401, [])
  | some u =>
      let found := (ownedRecipes u db).filter
        (fun r => matchesTagFilter tagIds r && matchesIngredientFilter ingIds r)
      (200, List.insertionSort recipeDescId found.dedup)

/-- Modelled from the spec: the tag list endpoint — ownership-filtered
tags (spec §4.1, §6), 401 when unauthenticated. -/
def listTags (db : DB) (auth : Option UserId) : Nat × List Tag :=
  match auth with
  | none => (401, [])
  | some u => (200, List.insertionSort tagDescName (ownedTags u db))

/-- Modelled from the spec: the ingredient list endpoint —
ownership-filtered ingredients (spec §4.1, §6), 401 when unauthenticated;
ordering by descending name taken from `test_retrieve_ingredient_list`
(the spec states no ordering for this endpoint). -/
def listIngredients (db : DB) (auth : Option UserId) : Nat × List Ingredient :=
  match auth with
  | none => (401, [])
  | some u => (200, List.insertionSort ingredientDescName (ownedIngredients u db))

/-- Modelled from the spec: recipe detail retrieval — only a row owned by
the requester is visible; absent or unowned rows surface as 404 (spec
§4.1, §7), unauthenticated as 401. -/
def retrieveRecipe (db : DB) (auth : Option UserId) (rid : Nat) :
    Nat × Option Recipe :=
  match auth with
  | none => (401, none)
  | some u =>
      match (ownedRecipes u db).find? (fun r => r.id == rid) with
      | some r => (200, some r)
      | none => (404, none)

/-! ## Recipe write handler (spec §4.3) -/

/-- Create payload (spec §6): title, time_minutes, price, optional tag-id
list, optional ingredient-id list. Required fields are present by
construction, matching a validated payload. -/
structure RecipePayload where
  title : String
  time_minutes : Nat
  price : ℚ
  tags : List Nat := []
  ingredients : List Nat := []
deriving DecidableEq, Repr

/-- Modelled from the spec: recipe creation — "persists a new Recipe owned
by the requester with the specified associations" (spec §4.3), status 201
(spec §6); 401 when unauthenticated. `newId` is the fresh id assigned by
the store. -/
def createRecipe (db : DB) (auth : Option UserId) (newId : Nat)
    (p : RecipePayload) : Nat × DB × Option Recipe :=
  match auth with
  | none => (401, db, none)
  | some u =>
      let r : Recipe :=
        { id := newId, title := p.title, time_minutes := p.time_minutes,
          price := p.price, user := u, image := none,
          tags := p.tags.dedup, ingredients := p.ingredients.dedup }
      (201, { db with recipes := db.recipes ++ [r] }, some r)

/-- Patch payload: every field optional (spec §4.3 "merges only supplied
fields"). -/
structure PatchPayload where
  title : Option String := none
  time_minutes : Option Nat := none
  price : Option ℚ := none
  tags : Option (List Nat) := none
  ingredients : Option (List Nat) := none
deriving DecidableEq, Repr

/-- Modelled from the spec: field-level effect of a patch — supplied
fields overwrite, omitted fields keep their value; a supplied tag or
ingredient list replaces the association set entirely (spec §4.3). Owner
and id are untouched. -/
def applyPatch (p : PatchPayload) (r : Recipe) : Recipe :=
  { r with
    title := p.title.getD r.title,
    time_minutes := p.time_minutes.getD r.time_minutes,
    price := p.price.getD r.price,
    tags := match p.tags with
      | none => r.tags
      | some ts => ts.dedup,
    ingredients := match p.ingredients with
      | none => r.ingredients
      | some xs => xs.dedup }

/-- Look up the requester's recipe row with the given id (the
ownership-scoped read used by the update/upload handlers). -/
def findRecipe (db : DB) (u : UserId) (rid : Nat) : Option Recipe :=
  (ownedRecipes u db).find? (fun r => r.id == rid)

/-- Rewrite the requester's row with the given id through `g`, leaving
every other row unchanged. -/
def updateRows (db : DB) (u : UserId) (rid : Nat) (g : Recipe → Recipe) : DB :=
  { db with recipes :=
      db.recipes.map (fun r => if r.id == rid && r.user == u then g r else r) }

/-- Modelled from the spec: the patch (partial update) handler (spec
§4.3) — ownership-scoped lookup, then field merge via `applyPatch`; 404
when the row is absent or unowned, 401 when unauthenticated. -/
def patchRecipe (db : DB) (auth : Option UserId) (rid : Nat)
    (p : PatchPayload) : Nat × DB :=
  match auth with
  | none => (401, db)
  | some u =>
      if (ownedRecipes u db).any (fun r => r.id == rid) then
        (200, updateRows db u rid (applyPatch p))
      else (404, db)

/-- Put payload: required fields mandatory, relations optional (spec
§4.3: "any relation not included in the payload is cleared to empty"). -/
structure PutPayload where
  title : String
  time_minutes : Nat
  price : ℚ
  tags : Option (List Nat) := none
  ingredients : Option (List Nat) := none
deriving DecidableEq, Repr

/-- Modelled from the spec: field-level effect of a put — "replaces all
fields; any relation not included in the payload is cleared to empty"
(spec §4.3). Owner and id are untouched. -/
def applyPut (p : PutPayload) (r : Recipe) : Recipe :=
  { r with
    title := p.title,
    time_minutes := p.time_minutes,
    price := p.price,
    tags := (p.tags.getD []).dedup,
    ingredients := (p.ingredients.getD []).dedup }

/-- Modelled from the spec: the put (full update) handler (spec §4.3). -/
def putRecipe (db : DB) (auth : Option UserId) (rid : Nat)
    (p : PutPayload) : Nat × DB :=
  match auth with
  | none => (401, db)
  | some u =>
      if (ownedRecipes u db).any (fun r => r.id == rid) then
        (200, updateRows db u rid (applyPut p))
      else (404, db)

/-- Modelled from the spec: the delete handler — ownership-scoped (spec
§4.1); 401 when unauthenticated. -/
def deleteRecipe (db : DB) (auth : Option UserId) (rid : Nat) : Nat × DB :=
  match auth with
  | none => (401, db)
  | some u =>
      if (ownedRecipes u db).any (fun r => r.id == rid) then
        (204, { db with recipes :=
            db.recipes.filter (fun r => !(r.id == rid && r.user == u)) })
      else (404, db)

/-- Modelled from the spec: the tag create endpoint — persists a tag owned
by the requester (spec §3 invariant, §6); 401 when unauthenticated. -/
def createTag (db : DB) (auth : Option UserId) (newId : Nat)
    (name : String) : Nat × DB × Option Tag :=
  match auth with
  | none => (401, db, none)
  | some u =>
      let t : Tag := { id := newId, name := name, user := u }
      (201, { db with tags := db.tags ++ [t] }, some t)

/-- Modelled from the spec: the ingredient create endpoint — persists an
ingredient owned by the requester (spec §3 invariant, §6); 401 when
unauthenticated. -/
def createIngredient (db : DB) (auth : Option UserId) (newId : Nat)
    (name : String) : Nat × DB × Option Ingredient :=
  match auth with
  | none => (401, db, none)
  | some u =>
      let i : Ingredient := { id := newId, name := name, user := u }
      (201, { db with ingredients := db.ingredients ++ [i] }, some i)

/-! ## Image attachment (spec §4.4) -/

/-- An uploaded file: its storage path and whether the payload is a valid
image (the property the validator checks). -/
structure UploadFile where
  path : String
  isImage : Bool
deriving DecidableEq, Repr

/-- Modelled from the spec: the image upload endpoint (spec §4.4) —
"rejects non-image payloads with a Validation error" (400, spec §6,
stores nothing); "on success stores a reference retrievable via the
recipe's detail representation" (200, the stored path is returned, the
file exists in storage). Ownership-scoped; 401 when unauthenticated. -/
def uploadImage (db : DB) (auth : Option UserId) (rid : Nat)
    (f : UploadFile) : Nat × DB × Option String :=
  match auth with
  | none => (401, db, none)
  | some u =>
      if (ownedRecipes u db).any (fun r => r.id == rid) then
        if f.isImage then
          let db2 := updateRows db u rid (fun r => { r with image := some f.path })
          (200, { db2 with files := db.files ++ [f.path] }, some f.path)
        else (400, db, none)
      else (404, db, none)

/-! ## User creation (src/app/user/views.py) -/

/-- User create payload (email, password). -/
structure UserPayload where
  email : String
  password : String
deriving DecidableEq, Repr

/-- Embeds `CreateUserView` of src/app/user/views.py: a
`generics.CreateAPIView` with only a `serializer_class` set — no
authentication or permission classes — so the request is served
regardless of the credentials carried, and creation answers 201.
Serializer field validation is not embedded (the serializer module is not
in `src/`); it is irrelevant to the authentication behaviour studied
here. -/
def createUser (db : DB) (auth : Option UserId) (newId : Nat)
    (p : UserPayload) : Nat × DB :=
  let u : User := { id := newId, email := p.email }
  let _ := auth
  (201, { db with users := db.users ++ [u] })

/-! ## Sample data, mirroring the test fixtures -/

/-- Mirror of the test helper `sample_recipe`: defaults title "Sample
recipe", time_minutes 10, price 5.00. -/
def sampleRecipe (rid uid : Nat) : Recipe :=
  { id := rid, title := "Sample recipe", time_minutes := 10, price := 5,
    user := uid }

/-- Mirror of the test helper `sample_tag`. -/
def sampleTag (tid uid : Nat) (nm : String) : Tag :=
  { id := tid, name := nm, user := uid }

/-- Mirror of the test helper `sample_ingredient`. -/
def sampleIngredient (iid uid : Nat) (nm : String) : Ingredient :=
  { id := iid, name := nm, user := uid }

/-! ## Helper lemmas -/

theorem mem_listRecipes_iff (db : DB) (u : UserId)
    (tagIds ingIds : Option (List Nat)) (r : Recipe) :
    r ∈ (listRecipes db (some u) tagIds ingIds).2 ↔
      r ∈ db.recipes ∧ r.user = u ∧
        matchesTagFilter tagIds r = true ∧
        matchesIngredientFilter ingIds r = true := by
  simp only [listRecipes, List.mem_insertionSort, List.mem_dedup,
    List.mem_filter, ownedRecipes, Bool.and_eq_true, beq_iff_eq]
  tauto

theorem mem_listTags_iff (db : DB) (u : UserId) (t : Tag) :
    t ∈ (listTags db (some u)).2 ↔ t ∈ db.tags ∧ t.user = u := by
  simp [listTags, ownedTags, List.mem_filter]

theorem mem_listIngredients_iff (db : DB) (u : UserId) (i : Ingredient) :
    i ∈ (listIngredients db (some u)).2 ↔ i ∈ db.ingredients ∧ i.user = u := by
  simp [listIngredients, ownedIngredients, List.mem_filter]

theorem any_of_findRecipe (db : DB) (u : UserId) (rid : Nat) (r0 : Recipe)
    (h : findRecipe db u rid = some r0) :
    (ownedRecipes u db).any (fun r => r.id == rid) = true := by
  have h' : (ownedRecipes u db).find? (fun r => r.id == rid) = some r0 := h
  have hp := List.find?_some h'
  exact List.any_eq_true.mpr ⟨r0, List.mem_of_find?_eq_some h', hp⟩

/-- Updating the requester's row with id `rid` through an id- and
owner-preserving rewrite moves the ownership-scoped lookup through the
rewrite. -/
theorem find?_filter_update (u rid : Nat) (g : Recipe → Recipe)
    (hid : ∀ r, (g r).id = r.id) (huser : ∀ r, (g r).user = r.user)
    (l : List Recipe) (r0 : Recipe)
    (h : (l.filter (fun r => r.user == u)).find? (fun r => r.id == rid) =
      some r0) :
    ((l.map (fun r => if r.id == rid && r.user == u then g r else r)).filter
        (fun r => r.user == u)).find? (fun r => r.id == rid) =
      some (g r0) := by
  induction l with
  | nil => simp at h
  | cons a l ih =>
    by_cases hu : a.user = u
    · by_cases hi : a.id = rid
      · rw [List.filter_cons_of_pos (by simp [hu])] at h
        rw [List.find?_cons_of_pos _ (by simp [hi])] at h
        injection h with h
        subst h
        rw [List.map_cons, if_pos (by simp [hu, hi])]
        rw [List.filter_cons_of_pos (by simp [huser, hu])]
        rw [List.find?_cons_of_pos _ (by simp [hid, hi])]
      · rw [List.filter_cons_of_pos (by simp [hu])] at h
        rw [List.find?_cons_of_neg _ (by simp [hi])] at h
        rw [List.map_cons, if_neg (by simp [hi])]
        rw [List.filter_cons_of_pos (by simp [hu])]
        rw [List.find?_cons_of_neg _ (by simp [hi])]
        exact ih h
    · rw [List.filter_cons_of_neg (by simp [hu])] at h
      rw [List.map_cons, if_neg (by simp [hu])]
      rw [List.filter_cons_of_neg (by simp [hu])]
      exact ih h

theorem findRecipe_updateRows (db : DB) (u : UserId) (rid : Nat)
    (g : Recipe → Recipe)
    (hid : ∀ r, (g r).id = r.id) (huser : ∀ r, (g r).user = r.user)
    (r0 : Recipe) (h : findRecipe db u rid = some r0) :
    findRecipe (updateRows db u rid g) u rid = some (g r0) :=
  find?_filter_update u rid g hid huser db.recipes r0 h

/-- An id- and owner-preserving row rewrite leaves the (id, owner) column
pair of the recipe table unchanged. -/
theorem updateRows_id_user (db : DB) (u : UserId) (rid : Nat)
    (g : Recipe → Recipe)
    (hid : ∀ r, (g r).id = r.id) (huser : ∀ r, (g r).user = r.user) :
    (updateRows db u rid g).recipes.map (fun r => (r.id, r.user)) =
      db.recipes.map (fun r => (r.id, r.user)) := by
  show (db.recipes.map _).map _ = _
  rw [List.map_map]
  refine List.map_congr_left (fun r _ => ?_)
  by_cases hc : (r.id == rid && r.user == u) = true <;>
    simp [Function.comp, hc, hid, huser]

theorem applyPatch_id (p : PatchPayload) (r : Recipe) :
    (applyPatch p r).id = r.id := rfl

theorem applyPatch_user (p : PatchPayload) (r : Recipe) :
    (applyPatch p r).user = r.user := rfl

theorem applyPut_id (p : PutPayload) (r : Recipe) :
    (applyPut p r).id = r.id := rfl

theorem applyPut_user (p : PutPayload) (r : Recipe) :
    (applyPut p r).user = r.user := rfl

/-! ## Claim theorems -/

/-- C1: for every pair of distinct users A and B, the list endpoints for
recipes, tags, and ingredients, invoked by authenticated user A, return
only rows whose owner equals A; no row created by B ever appears in A's
list response. -/
theorem listEndpointsOwnershipScoped (db : DB) (A B : UserId) (hAB : A ≠ B)
    (tagIds ingIds : Option (List Nat)) :
    (∀ r ∈ (listRecipes db (some A) tagIds ingIds).2, r.user = A) ∧
    (∀ t ∈ (listTags db (some A)).2, t.user = A) ∧
    (∀ i ∈ (listIngredients db (some A)).2, i.user = A) ∧
    (∀ r : Recipe, r.user = B →
      r ∉ (listRecipes db (some A) tagIds ingIds).2) ∧
    (∀ t : Tag, t.user = B → t ∉ (listTags db (some A)).2) ∧
    (∀ i : Ingredient, i.user = B → i ∉ (listIngredients db (some A)).2) := by
  refine ⟨fun r hr => ((mem_listRecipes_iff db A tagIds ingIds r).mp hr).2.1,
    fun t ht => ((mem_listTags_iff db A t).mp ht).2,
    fun i hi => ((mem_listIngredients_iff db A i).mp hi).2,
    fun r hB hr => ?_, fun t hB ht => ?_, fun i hB hi => ?_⟩
  · exact hAB ((((mem_listRecipes_iff db A tagIds ingIds r).mp hr).2.1).symm.trans hB)
  · exact hAB ((((mem_listTags_iff db A t).mp ht).2).symm.trans hB)
  · exact hAB ((((mem_listIngredients_iff db A i).mp hi).2).symm.trans hB)

/-- C1 witness: with user 1 authenticated and user 2 a distinct owner, a
recipe, tag, and ingredient of user 2 are absent from user 1's lists. -/
theorem listEndpointsOwnershipScoped_witness :
    (1 : Nat) ≠ 2 ∧
    sampleRecipe 1 2 ∉
      (listRecipes { recipes := [sampleRecipe 1 2, sampleRecipe 2 1] }
        (some 1) none none).2 ∧
    sampleTag 1 2 "Vinegar" ∉
      (listTags { tags := [sampleTag 1 2 "Vinegar"] } (some 1)).2 := by
  have h12 : (1 : Nat) ≠ 2 := by decide
  have h := listEndpointsOwnershipScoped
    { recipes := [sampleRecipe 1 2, sampleRecipe 2 1] } 1 2 h12 none none
  have h' := listEndpointsOwnershipScoped
    { tags := [sampleTag 1 2 "Vinegar"] } 1 2 h12 none none
  exact ⟨h12, h.2.2.2.1 (sampleRecipe 1 2) rfl,
    h'.2.2.2.2.1 (sampleTag 1 2 "Vinegar") rfl⟩

/-- C2 counterexample: an unauthenticated request to the create-user
endpoint (src/app/user/views.py `CreateUserView`, which configures no
authentication or permission classes) is served with status 201, not
401. -/
theorem createUserUnauthenticated201 :
    (createUser {} none 1 { email := "test@test.com", password := "Test1" }).1
        = 201 ∧
    (createUser {} none 1 { email := "test@test.com", password := "Test1" }).1
        ≠ 401 :=
  ⟨rfl, by decide⟩

/-- C2 amended: every listed endpoint except user-account creation answers
401 to an unauthenticated request, leaves the store unchanged, and
returns an empty body — the ownership filter is never consulted; the
create-user endpoint is public and serves the request (201) regardless of
credentials. -/
theorem unauthenticatedRequests401 (db : DB) (tagIds ingIds : Option (List Nat))
    (rid nid : Nat) (rp : RecipePayload) (pp : PatchPayload) (fp : PutPayload)
    (f : UploadFile) (nm : String) (up : UserPayload) :
    listRecipes db none tagIds ingIds = (401, []) ∧
    retrieveRecipe db none rid = (401, none) ∧
    createRecipe db none nid rp = (401, db, none) ∧
    patchRecipe db none rid pp = (401, db) ∧
    putRecipe db none rid fp = (401, db) ∧
    deleteRecipe db none rid = (401, db) ∧
    uploadImage db none rid f = (401, db, none) ∧
    listTags db none = (401, []) ∧
    createTag db none nid nm = (401, db, none) ∧
    listIngredients db none = (401, []) ∧
    createIngredient db none nid nm = (401, db, none) ∧
    (createUser db none nid up).1 = 201 :=
  ⟨rfl, rfl, rfl, rfl, rfl, rfl, rfl, rfl, rfl, rfl, rfl, rfl⟩

/-- C3: with a tag-id set, the recipe list contains exactly the owned
recipes carrying at least one tag from the set (logical OR); likewise for
an ingredient-id set via ingredient association; every listing is free of
duplicate rows. -/
theorem recipeListFilterSemantics (db : DB) (u : UserId)
    (tagIds ingIds : List Nat) :
    (∀ r, r ∈ (listRecipes db (some u) (some tagIds) none).2 ↔
        r ∈ db.recipes ∧ r.user = u ∧ ∃ t ∈ r.tags, t ∈ tagIds) ∧
    (∀ r, r ∈ (listRecipes db (some u) none (some ingIds)).2 ↔
        r ∈ db.recipes ∧ r.user = u ∧ ∃ i ∈ r.ingredients, i ∈ ingIds) ∧
    (∀ ts xs : Option (List Nat),
        ((listRecipes db (some u) ts xs).2).Nodup) := by
  refine ⟨fun r => ?_, fun r => ?_, fun ts xs => ?_⟩
  · rw [mem_listRecipes_iff]
    simp [matchesTagFilter, matchesIngredientFilter, List.any_eq_true]
  · rw [mem_listRecipes_iff]
    simp [matchesTagFilter, matchesIngredientFilter, List.any_eq_true]
  · show (List.insertionSort recipeDescId _).Nodup
    exact (List.perm_insertionSort recipeDescId _).nodup_iff.mpr
      (List.nodup_dedup _)

/-- Fixture for the patch scenario of `test_partial_update_recipe`: the
sample recipe initially tagged with tag 10. -/
def patchBaseRecipe : Recipe :=
  { id := 1, title := "Sample recipe", time_minutes := 10, price := 5,
    user := 1, tags := [10] }

/-- Fixture store holding `patchBaseRecipe` and the two tags of
`test_partial_update_recipe`. -/
def patchDB : DB :=
  { recipes := [patchBaseRecipe],
    tags := [sampleTag 10 1 "Main course", sampleTag 11 1 "Currey"] }

/-- The patch payload of `test_partial_update_recipe`: new title, tag set
replaced by [11]. -/
def patchPayloadCurrey : PatchPayload :=
  { title := some "Chicken tikka", tags := some [11] }

/-- C4: a patch changes only the supplied fields; a supplied tags (or
ingredients) list becomes the exact association set afterwards — prior
associations are removed, not merged. -/
theorem patchUpdatesOnlySuppliedFields (db : DB) (u : UserId) (rid : Nat)
    (p : PatchPayload) (r0 : Recipe) (h : findRecipe db u rid = some r0) :
    (patchRecipe db (some u) rid p).1 = 200 ∧
    findRecipe (patchRecipe db (some u) rid p).2 u rid =
      some (applyPatch p r0) ∧
    (p.title = none → (applyPatch p r0).title = r0.title) ∧
    (p.time_minutes = none →
      (applyPatch p r0).time_minutes = r0.time_minutes) ∧
    (p.price = none → (applyPatch p r0).price = r0.price) ∧
    (p.tags = none → (applyPatch p r0).tags = r0.tags) ∧
    (p.ingredients = none →
      (applyPatch p r0).ingredients = r0.ingredients) ∧
    (∀ s, p.title = some s → (applyPatch p r0).title = s) ∧
    (∀ ts, p.tags = some ts →
      ∀ x, x ∈ (applyPatch p r0).tags ↔ x ∈ ts) ∧
    (∀ xs, p.ingredients = some xs →
      ∀ x, x ∈ (applyPatch p r0).ingredients ↔ x ∈ xs) ∧
    (applyPatch p r0).user = r0.user := by
  have hany := any_of_findRecipe db u rid r0 h
  have hdb : (patchRecipe db (some u) rid p).2 =
      updateRows db u rid (applyPatch p) := by
    simp [patchRecipe, hany]
  refine ⟨by simp [patchRecipe, hany], ?_, ?_, ?_, ?_, ?_, ?_, ?_, ?_, ?_, rfl⟩
  · rw [hdb]
    exact findRecipe_updateRows db u rid (applyPatch p)
      (applyPatch_id p) (applyPatch_user p) r0 h
  · intro hn; simp [applyPatch, hn]
  · intro hn; simp [applyPatch, hn]
  · intro hn; simp [applyPatch, hn]
  · intro hn; simp [applyPatch, hn]
  · intro hn; simp [applyPatch, hn]
  · intro s hs; simp [applyPatch, hs]
  · intro ts hts x; simp [applyPatch, hts]
  · intro xs hxs x; simp [applyPatch, hxs]

/-- C4 witness: patching `patchBaseRecipe` with title "Chicken tikka" and
tags [11] yields that exact row via the detail lookup; the tag set is
exactly [11] (size 1, old tag 10 gone), the title is replaced, and the
unsupplied time_minutes keeps its value. -/
theorem patchUpdatesOnlySuppliedFields_witness :
    findRecipe patchDB 1 1 = some patchBaseRecipe ∧
    findRecipe (patchRecipe patchDB (some 1) 1 patchPayloadCurrey).2 1 1 =
      some (applyPatch patchPayloadCurrey patchBaseRecipe) ∧
    (applyPatch patchPayloadCurrey patchBaseRecipe).tags = [11] ∧
    (applyPatch patchPayloadCurrey patchBaseRecipe).title = "Chicken tikka" ∧
    (applyPatch patchPayloadCurrey patchBaseRecipe).time_minutes = 10 := by
  have h : findRecipe patchDB 1 1 = some patchBaseRecipe := rfl
  have hh := patchUpdatesOnlySuppliedFields patchDB 1 1 patchPayloadCurrey
    patchBaseRecipe h
  exact ⟨h, hh.2.1, rfl, rfl, rfl⟩

/-- Fixture for the put scenario of `test_full_update_recipe`: the sample
recipe initially tagged with tag 10. -/
def putDB : DB :=
  { recipes := [patchBaseRecipe], tags := [sampleTag 10 1 "Main course"] }

/-- The put payload of `test_full_update_recipe` — no tags field. -/
def putPayloadCarbo : PutPayload :=
  { title := "Spaghetti carbo", time_minutes := 25, price := 5 }

/-- C5: a put replaces all fields with the payload's values, and a
many-to-many relation absent from the payload is cleared to the empty
set. -/
theorem putReplacesAllFields (db : DB) (u : UserId) (rid : Nat)
    (fp : PutPayload) (r0 : Recipe) (h : findRecipe db u rid = some r0) :
    (putRecipe db (some u) rid fp).1 = 200 ∧
    findRecipe (putRecipe db (some u) rid fp).2 u rid =
      some (applyPut fp r0) ∧
    (applyPut fp r0).title = fp.title ∧
    (applyPut fp r0).time_minutes = fp.time_minutes ∧
    (applyPut fp r0).price = fp.price ∧
    (fp.tags = none → (applyPut fp r0).tags = []) ∧
    (fp.ingredients = none → (applyPut fp r0).ingredients = []) ∧
    (applyPut fp r0).user = r0.user := by
  have hany := any_of_findRecipe db u rid r0 h
  have hdb : (putRecipe db (some u) rid fp).2 =
      updateRows db u rid (applyPut fp) := by
    simp [putRecipe, hany]
  refine ⟨by simp [putRecipe, hany], ?_, rfl, rfl, rfl, ?_, ?_, rfl⟩
  · rw [hdb]
    exact findRecipe_updateRows db u rid (applyPut fp)
      (applyPut_id fp) (applyPut_user fp) r0 h
  · intro hn; simp [applyPut, hn]
  · intro hn; simp [applyPut, hn]

/-- C5 witness: put-updating `patchBaseRecipe` with the tag-less payload
replaces title, time and price and clears the tag set to empty. -/
theorem putReplacesAllFields_witness :
    findRecipe putDB 1 1 = some patchBaseRecipe ∧
    findRecipe (putRecipe putDB (some 1) 1 putPayloadCarbo).2 1 1 =
      some (applyPut putPayloadCarbo patchBaseRecipe) ∧
    (applyPut putPayloadCarbo patchBaseRecipe).tags = [] ∧
    (applyPut putPayloadCarbo patchBaseRecipe).title = "Spaghetti carbo" ∧
    (applyPut putPayloadCarbo patchBaseRecipe).time_minutes = 25 := by
  have h : findRecipe putDB 1 1 = some patchBaseRecipe := rfl
  have hh := putReplacesAllFields putDB 1 1 putPayloadCarbo patchBaseRecipe h
  exact ⟨h, hh.2.1, rfl, rfl, rfl⟩

/-- C6: an authenticated create with payload {title: "Chocolate
cheesecake", time_minutes: 30, price: 5.00} answers 201, and the
persisted row is owned by the requester and carries exactly those field
values. -/
theorem createBasicRecipe201 (db : DB) (u : UserId) (nid : Nat) :
    (createRecipe db (some u) nid
      { title := "Chocolate cheesecake", time_minutes := 30,
        price := 5 }).1 = 201 ∧
    ∃ r : Recipe,
      (createRecipe db (some u) nid
        { title := "Chocolate cheesecake", time_minutes := 30,
          price := 5 }).2.2 = some r ∧
      r ∈ (createRecipe db (some u) nid
        { title := "Chocolate cheesecake", time_minutes := 30,
          price := 5 }).2.1.recipes ∧
      r.user = u ∧ r.title = "Chocolate cheesecake" ∧
      r.time_minutes = 30 ∧ r.price = 5 := by
  refine ⟨rfl, _, rfl, ?_, rfl, rfl, rfl, rfl⟩
  simp [createRecipe]

theorem findRecipe_congr (d1 d2 : DB) (u : UserId) (rid : Nat)
    (h : d1.recipes = d2.recipes) :
    findRecipe d1 u rid = findRecipe d2 u rid := by
  unfold findRecipe ownedRecipes
  rw [h]

/-- Fixture for the image upload scenario: the sample recipe of the upload
test class. -/
def uploadDB : DB := { recipes := [sampleRecipe 1 1] }

/-- C7: uploading a non-image payload to a recipe's image endpoint answers
400 and stores nothing; uploading a valid image answers 200 with the
image reference in the response, the file present in storage, and the
reference retrievable via the recipe's detail row. -/
theorem imageUploadValidation (db : DB) (u : UserId) (rid : Nat)
    (f : UploadFile) (r0 : Recipe) (h : findRecipe db u rid = some r0) :
    (f.isImage = false → uploadImage db (some u) rid f = (400, db, none)) ∧
    (f.isImage = true →
      (uploadImage db (some u) rid f).1 = 200 ∧
      (uploadImage db (some u) rid f).2.2 = some f.path ∧
      f.path ∈ (uploadImage db (some u) rid f).2.1.files ∧
      findRecipe (uploadImage db (some u) rid f).2.1 u rid =
        some { r0 with image := some f.path }) := by
  have hany := any_of_findRecipe db u rid r0 h
  constructor
  · intro hf
    simp [uploadImage, hany, hf]
  · intro hf
    have hrec : (uploadImage db (some u) rid f).2.1.recipes =
        (updateRows db u rid (fun r => { r with image := some f.path })).recipes := by
      simp [uploadImage, hany, hf, updateRows]
    have hfile : (uploadImage db (some u) rid f).2.1.files =
        db.files ++ [f.path] := by
      simp [uploadImage, hany, hf]
    refine ⟨by simp [uploadImage, hany, hf], by simp [uploadImage, hany, hf],
      ?_, ?_⟩
    · rw [hfile]; simp
    · rw [findRecipe_congr _ _ u rid hrec]
      exact findRecipe_updateRows db u rid
        (fun r => { r with image := some f.path })
        (fun r => rfl) (fun r => rfl) r0 h

/-- C7 witness: on `uploadDB`, the non-image payload "x" is rejected with
400 and the store is unchanged, while the JPEG at path "recipe.jpg" is
accepted with 200, echoed in the response, and present in storage. -/
theorem imageUploadValidation_witness :
    findRecipe uploadDB 1 1 = some (sampleRecipe 1 1) ∧
    uploadImage uploadDB (some 1) 1 { path := "x", isImage := false } =
      (400, uploadDB, none) ∧
    (uploadImage uploadDB (some 1) 1
      { path := "recipe.jpg", isImage := true }).1 = 200 ∧
    (uploadImage uploadDB (some 1) 1
      { path := "recipe.jpg", isImage := true }).2.2 = some "recipe.jpg" ∧
    "recipe.jpg" ∈ (uploadImage uploadDB (some 1) 1
      { path := "recipe.jpg", isImage := true }).2.1.files := by
  have h : findRecipe uploadDB 1 1 = some (sampleRecipe 1 1) := rfl
  have hbad := imageUploadValidation uploadDB 1 1
    { path := "x", isImage := false } (sampleRecipe 1 1) h
  have hgood := imageUploadValidation uploadDB 1 1
    { path := "recipe.jpg", isImage := true } (sampleRecipe 1 1) h
  exact ⟨h, hbad.1 rfl, (hgood.2 rfl).1, (hgood.2 rfl).2.1,
    (hgood.2 rfl).2.2.1⟩

/-- C8: the unfiltered recipe list returned to an authenticated user is in
descending (reverse-id) order. -/
theorem unfilteredRecipeListReverseIdOrder (db : DB) (u : UserId) :
    ((listRecipes db (some u) none none).2).Pairwise
      (fun a b => b.id ≤ a.id) := by
  show List.Sorted recipeDescId _
  exact List.sorted_insertionSort recipeDescId _

/-- Payload used by the C9 witness, mirroring `sample_recipe`'s
defaults. -/
def samplePayload : RecipePayload :=
  { title := "Sample recipe", time_minutes := 10, price := 5 }

/-- The row `createRecipe` persists for user 7 from `samplePayload` under
fresh id 1. -/
def createdRecipe7 : Recipe :=
  { id := 1, title := "Sample recipe", time_minutes := 10, price := 5,
    user := 7 }

/-- C9: the owner of every Tag, Ingredient and Recipe row is set at
creation to the authenticated requester, and no partial update, full
update or image upload ever changes any row's owner (or id). -/
theorem ownerSetAtCreationImmutable (db : DB) (u : UserId) (nid rid : Nat)
    (rp : RecipePayload) (nm : String) (pp : PatchPayload) (fp : PutPayload)
    (f : UploadFile) :
    (∀ r, (createRecipe db (some u) nid rp).2.2 = some r → r.user = u) ∧
    (∀ t, (createTag db (some u) nid nm).2.2 = some t → t.user = u) ∧
    (∀ i, (createIngredient db (some u) nid nm).2.2 = some i → i.user = u) ∧
    ((patchRecipe db (some u) rid pp).2.recipes.map
        (fun r => (r.id, r.user)) =
      db.recipes.map (fun r => (r.id, r.user))) ∧
    ((putRecipe db (some u) rid fp).2.recipes.map
        (fun r => (r.id, r.user)) =
      db.recipes.map (fun r => (r.id, r.user))) ∧
    ((uploadImage db (some u) rid f).2.1.recipes.map
        (fun r => (r.id, r.user)) =
      db.recipes.map (fun r => (r.id, r.user))) := by
  refine ⟨?_, ?_, ?_, ?_, ?_, ?_⟩
  · intro r hr
    simp [createRecipe] at hr
    subst hr; rfl
  · intro t ht
    simp [createTag] at ht
    subst ht; rfl
  · intro i hi
    simp [createIngredient] at hi
    subst hi; rfl
  · by_cases hany : ((ownedRecipes u db).any (fun r => r.id == rid)) = true
    · have hdb : (patchRecipe db (some u) rid pp).2 =
          updateRows db u rid (applyPatch pp) := by simp [patchRecipe, hany]
      rw [hdb]
      exact updateRows_id_user db u rid _ (applyPatch_id pp)
        (applyPatch_user pp)
    · have hdb : (patchRecipe db (some u) rid pp).2 = db := by
        simp [patchRecipe, hany]
      rw [hdb]
  · by_cases hany : ((ownedRecipes u db).any (fun r => r.id == rid)) = true
    · have hdb : (putRecipe db (some u) rid fp).2 =
          updateRows db u rid (applyPut fp) := by simp [putRecipe, hany]
      rw [hdb]
      exact updateRows_id_user db u rid _ (applyPut_id fp) (applyPut_user fp)
    · have hdb : (putRecipe db (some u) rid fp).2 = db := by
        simp [putRecipe, hany]
      rw [hdb]
  · by_cases hany : ((ownedRecipes u db).any (fun r => r.id == rid)) = true
    · by_cases hf : f.isImage = true
      · have hrec : (uploadImage db (some u) rid f).2.1.recipes =
            (updateRows db u rid
              (fun r => { r with image := some f.path })).recipes := by
          simp [uploadImage, hany, hf, updateRows]
        rw [hrec]
        exact updateRows_id_user db u rid _ (fun r => rfl) (fun r => rfl)
      · have hdb : (uploadImage db (some u) rid f).2.1 = db := by
          simp [uploadImage, hany, hf]
        rw [hdb]
    · have hdb : (uploadImage db (some u) rid f).2.1 = db := by
        simp [uploadImage, hany]
      rw [hdb]

/-- C9 witness: user 7 creating a recipe from `samplePayload` persists
`createdRecipe7`, whose owner is user 7. -/
theorem ownerSetAtCreationImmutable_witness :
    (createRecipe {} (some 7) 1 samplePayload).2.2 = some createdRecipe7 ∧
    createdRecipe7.user = 7 := by
  have h := ownerSetAtCreationImmutable {} 7 1 1 samplePayload "Vegan" {}
    { title := "T", time_minutes := 1, price := 1 }
    { path := "p.jpg", isImage := true }
  exact ⟨rfl, h.1 createdRecipe7 rfl⟩

/-- C10: the ingredient list endpoint returns exactly the authenticated
user's ingredients, sorted by name in descending lexicographic
(reverse-name) order. -/
theorem ingredientListReverseNameOrder (db : DB) (u : UserId) :
    ((listIngredients db (some u)).2).Pairwise
      (fun a b => b.name ≤ a.name) ∧
    (∀ i, i ∈ (listIngredients db (some u)).2 ↔
      i ∈ db.ingredients ∧ i.user = u) := by
  constructor
  · show List.Sorted ingredientDescName _
    exact List.sorted_insertionSort ingredientDescName _
  · exact fun i => mem_listIngredients_iff db u i

end RecipeApp
